import Mathlib

/-!
Verification development for the BacktestGPT repository.

Frontend definitions are shallow embeddings of the two React frontends in the
repository (the chat frontend and the legacy single-input frontend, both in
`page.tsx` form).  Numbers are modelled as rationals, JS `undefined`/absent
fields as `Option`, and truthiness of a field as a `Bool` (or a test on the
`Option`).  Backend components (indicator engine, signal engine, backtest
simulator, metrics calculator) are not present in the source tree; they are
modelled from the specification and marked as such in their doc comments.
-/

namespace BacktestGPT

/-! ## Frontend data model (from the chat frontend, `page.tsx`) -/

/-- Embeds the `ChatMessage` type of the chat frontend: role is the string
`"user"` or `"assistant"`, `content` the message text, and the JS `Date`
timestamp is modelled as a natural number. -/
structure ChatMessage where
  role : String
  content : String
  timestamp : Nat
deriving DecidableEq, Repr

/-- Embeds one element of the `conversation_history` array sent to the
backend: the frontend maps each `ChatMessage` to `\x7b role, content \x7d`,
dropping the timestamp. -/
structure Turn where
  role : String
  content : String
deriving DecidableEq, Repr

/-- Embeds the JSON body of a POST to `/natural_backtest`.  The legacy
frontend omits the `conversation_history` key entirely, which is modelled by
`none`. -/
structure RequestBody where
  input : String
  conversation_history : Option (List Turn)
deriving DecidableEq, Repr

/-- Embeds the request-body construction in the chat frontend's
`handleSubmit`: `\x7b input: currentInput, conversation_history:
chatHistory.map(msg => (\x7b role: msg.role, content: msg.content \x7d)) \x7d`. -/
def naturalBacktestBody (currentInput : String) (chatHistory : List ChatMessage) :
    RequestBody :=
  { input := currentInput,
    conversation_history :=
      some (chatHistory.map fun msg => { role := msg.role, content := msg.content }) }

/-- Embeds the request-body construction in the legacy frontend's
`handleSubmit` (`src/app/src/app/page.tsx`):
`body: JSON.stringify(\x7b input: nlInput \x7d)` — no conversation history key. -/
def legacyBacktestBody (nlInput : String) : RequestBody :=
  { input := nlInput, conversation_history := none }

/-- Embeds the response JSON of `/natural_backtest` as consumed by the chat
frontend's dispatch: `conversation` and `needs_clarification` are recorded by
their JS truthiness, `message` is the clarification text, `error` is the
optional error string. -/
structure ResponseJson where
  conversation : Bool
  needs_clarification : Bool
  message : String
  error : Option String
deriving DecidableEq, Repr

/-- Truthiness of the optional `error` field: absent or the empty string is
falsy in JS, any other string is truthy. -/
def errTruthy : Option String → Bool
  | none => false
  | some s => !(s == "")

/-- The two pieces of component state touched by the response dispatch:
`chatHistory` and `data` (the displayed backtest results, `null` when no
results are shown). -/
structure FrontendState where
  chatHistory : List ChatMessage
  data : Option ResponseJson
deriving DecidableEq, Repr

/-- The assistant message appended on the error branch:
`content: "I encountered an issue: " + json.error`. -/
def errorChatMessage (json : ResponseJson) (now : Nat) : ChatMessage :=
  { role := "assistant",
    content := "I encountered an issue: " ++ json.error.getD "",
    timestamp := now }

/-- The fixed assistant message appended on the success branch. -/
def successText : String :=
  "Great! I\x27ve run your backtest. Here are the results:"

/-- Embeds the response dispatch of the chat frontend's `handleSubmit`:
`if (json.conversation && json.needs_clarification)` append the clarification
message verbatim and clear `data`; `else if (json.error)` append an error
message and leave `data` alone; otherwise append a success message and set
`data` to the response. -/
def handleSubmitResponse (now : Nat) (json : ResponseJson) (s : FrontendState) :
    FrontendState :=
  if json.conversation && json.needs_clarification then
    { chatHistory := s.chatHistory ++
        [{ role := "assistant", content := json.message, timestamp := now }],
      data := none }
  else if errTruthy json.error then
    { chatHistory := s.chatHistory ++ [errorChatMessage json now],
      data := s.data }
  else
    { chatHistory := s.chatHistory ++
        [{ role := "assistant", content := successText, timestamp := now }],
      data := some json }

/-! ## Frontend chart construction (identical in both frontends) -/

/-- Embeds the `chart_data` object of a backtest response; each array may be
absent (`undefined`), modelled by `Option`.  `indicators` and `signals` are
objects mapping a series name to a value array, modelled as association
lists (preserving `Object.entries` order). -/
structure ChartDataObj where
  dates : Option (List String)
  equity : Option (List ℚ)
  drawdown : Option (List ℚ)
  indicators : Option (List (String × List ℚ))
  signals : Option (List (String × List ℚ))
deriving DecidableEq, Repr

/-- Embeds one Chart.js dataset as built by the frontend (colour styling
omitted: only the label and data enter the claims). -/
structure Dataset where
  label : String
  data : List ℚ
deriving DecidableEq, Repr

/-- Embeds a Chart.js line-chart config: `labels` is whatever
`chartData.dates` holds (possibly `undefined`), `datasets` the dataset
list. -/
structure LineChart where
  labels : Option (List String)
  datasets : List Dataset
deriving DecidableEq, Repr

/-- Embeds a named chart entry of `indicatorCharts` / `signalCharts`. -/
structure NamedChart where
  name : String
  chart : LineChart
deriving DecidableEq, Repr

/-- Embeds `equityChart`: `null` unless both `chartData.dates` and
`chartData.equity` are present; otherwise labels are `chartData.dates`. -/
def equityChart (cd : ChartDataObj) : Option LineChart :=
  match cd.dates, cd.equity with
  | some _, some eq =>
      some { labels := cd.dates, datasets := [{ label := "Equity Curve", data := eq }] }
  | _, _ => none

/-- Embeds `drawdownChart`: `null` unless both `chartData.dates` and
`chartData.drawdown` are present; otherwise labels are `chartData.dates`. -/
def drawdownChart (cd : ChartDataObj) : Option LineChart :=
  match cd.dates, cd.drawdown with
  | some _, some dd =>
      some { labels := cd.dates, datasets := [{ label := "Drawdown (%)", data := dd }] }
  | _, _ => none

/-- Embeds `indicatorCharts`: one named chart per `Object.entries` pair of
`chartData.indicators`, each with `labels: chartData.dates`. -/
def indicatorCharts (cd : ChartDataObj) : List NamedChart :=
  match cd.indicators with
  | none => []
  | some entries =>
      entries.map fun e =>
        { name := e.1,
          chart := { labels := cd.dates, datasets := [{ label := e.1, data := e.2 }] } }

/-- Embeds `signalCharts`: one named chart per `Object.entries` pair of
`chartData.signals`, each with `labels: chartData.dates`. -/
def signalCharts (cd : ChartDataObj) : List NamedChart :=
  match cd.signals with
  | none => []
  | some entries =>
      entries.map fun e =>
        { name := e.1,
          chart := { labels := cd.dates, datasets := [{ label := e.1, data := e.2 }] } }

/-! ## Frontend metric formatting -/

/-- Embeds JS `value.toFixed(2)` on the rational model of a number: round to
the nearest hundredth and print with exactly two decimal places. -/
def toFixed2 (q : ℚ) : String :=
  let n : ℤ := round (q * 100)
  let sign := if n < 0 then "-" else ""
  let a := n.natAbs
  let fp := a % 100
  let fpStr := if fp < 10 then "0" ++ toString fp else toString fp
  sign ++ toString (a / 100) ++ "." ++ fpStr

/-- Embeds JS `value.toString()` as used for the `integer` format (the only
metric rendered with it, `total_trades`, is an integer; non-integers fall
back to the fixed-point rendering in this model). -/
def jsNumberToString (q : ℚ) : String :=
  if q.den = 1 then toString q.num else toFixed2 q

/-- Embeds `formatValue` of both frontends: `undefined` renders as the plain
string `"0.00"` before any format-specific branch is reached; otherwise
`currency` prepends `$`, `percent` appends `%`, `integer` uses `toString()`,
and every other format string uses `toFixed(2)`. -/
def formatValue (value : Option ℚ) (format : String) : String :=
  match value with
  | none => "0.00"
  | some v =>
    if format = "currency" then "$" ++ toFixed2 v
    else if format = "percent" then toFixed2 v ++ "%"
    else if format = "integer" then jsNumberToString v
    else toFixed2 v

/-! ## Backend model (spec-modelled: the backend sources are not in the tree) -/

/-- Modelled from the spec: the backtest simulator is a state machine over
the two states Flat and Long (`backend/backtest_loop.py` is not in `src/`).
A Flat state carries the cash balance, a Long state the share count. -/
inductive PosState where
  | Flat : (cash : ℚ) → PosState
  | Long : (shares : ℚ) → PosState
deriving DecidableEq, Repr

/-- True exactly on the Flat state. -/
def PosState.isFlat : PosState → Bool
  | .Flat _ => true
  | .Long _ => false

/-- True exactly on the Long state. -/
def PosState.isLong : PosState → Bool
  | .Flat _ => false
  | .Long _ => true

/-- Modelled from the spec: a trade event emitted by the simulator — a
position opened or closed at a bar's close price. -/
inductive TradeEvent where
  | opened : (price : ℚ) → TradeEvent
  | closed : (price : ℚ) → TradeEvent
deriving DecidableEq, Repr

/-- The kind of a trade event, forgetting the price. -/
inductive EvKind where
  | opened : EvKind
  | closed : EvKind
deriving DecidableEq, Repr

/-- Kind of a trade event. -/
def TradeEvent.kind : TradeEvent → EvKind
  | .opened _ => .opened
  | .closed _ => .closed

/-- The opposite event kind. -/
def EvKind.other : EvKind → EvKind
  | .opened => .closed
  | .closed => .opened

/-- Modelled from the spec: one simulation bar — transition Flat→Long on a
true entry signal (all cash into shares at the bar's close, reduced by the
fee rate) and Long→Flat on a true exit signal (shares back to cash at the
bar's close, reduced by the fee rate); an exit takes precedence over a
same-bar entry when a position is open, and no same-bar reopen occurs. -/
def stepBar (fee : ℚ) (close : ℚ) (entrySig exitSig : Bool) :
    PosState → PosState × List TradeEvent
  | .Long shares =>
      if exitSig then (.Flat (shares * close * (1 - fee)), [.closed close])
      else (.Long shares, [])
  | .Flat cash =>
      if entrySig then (.Long (cash * (1 - fee) / close), [.opened close])
      else (.Flat cash, [])

/-- Modelled from the spec: run the simulator over a bar list of
(close, entry, exit) triples, returning the final state and the trade
events in order. -/
def runSim (fee : ℚ) : PosState → List (ℚ × Bool × Bool) → PosState × List TradeEvent
  | st, [] => (st, [])
  | st, (c, e, x) :: rest =>
      let s2 := stepBar fee c e x st
      let sr := runSim fee s2.1 rest
      (sr.1, s2.2 ++ sr.2)

/-- Modelled from the spec: the position state after each bar. -/
def posStates (fee : ℚ) : PosState → List (ℚ × Bool × Bool) → List PosState
  | _, [] => []
  | st, (c, e, x) :: rest =>
      let st2 := (stepBar fee c e x st).1
      st2 :: posStates fee st2 rest

/-- Modelled from the spec: equity at a bar — cash if Flat, shares times the
bar's close if Long (mark-to-market). -/
def equityAt (st : PosState) (close : ℚ) : ℚ :=
  match st with
  | .Flat cash => cash
  | .Long shares => shares * close

/-- Modelled from the spec: the equity curve, one value per bar, evaluated
after that bar's transition at that bar's close. -/
def equitySeries (fee : ℚ) : PosState → List (ℚ × Bool × Bool) → List ℚ
  | _, [] => []
  | st, (c, e, x) :: rest =>
      let st2 := (stepBar fee c e x st).1
      equityAt st2 c :: equitySeries fee st2 rest

/-- Modelled from the spec: the drawdown series relative to a running
maximum accumulator `m` — at each point the running max is updated with the
current value and the drawdown is `(value - running_max) / running_max`. -/
def ddAux (m : ℚ) : List ℚ → List ℚ
  | [] => []
  | v :: rest =>
      let m2 := max m v
      (v - m2) / m2 :: ddAux m2 rest

/-- Modelled from the spec: `DrawdownSeries` of an equity curve,
`(value - running_max)/running_max` at each point. -/
def drawdownSeries (eq : List ℚ) : List ℚ :=
  ddAux 0 eq

/-- Modelled from the spec: `max_drawdown = min(DrawdownSeries)`, `0` on an
empty series. -/
def max_drawdown (eq : List ℚ) : ℚ :=
  (drawdownSeries eq).foldr min 0

/-- A list of rationals is non-decreasing (each element at most the next). -/
def nondecreasing : List ℚ → Prop
  | [] => True
  | [_] => True
  | a :: b :: rest => a ≤ b ∧ nondecreasing (b :: rest)

/-- Modelled from the spec: `cross_above(A,B)[i]` is true iff
`A[i-1] <= B[i-1]` and `A[i] > B[i]` (false at index 0 and out of range). -/
def cross_above (A B : List ℚ) (i : Nat) : Bool :=
  decide (0 < i) && decide (i < A.length) && decide (i < B.length) &&
  decide (A.getD (i - 1) 0 ≤ B.getD (i - 1) 0) &&
  decide (B.getD i 0 < A.getD i 0)

/-- Modelled from the spec: `cross_below(A,B)[i]` is true iff
`A[i-1] >= B[i-1]` and `A[i] < B[i]` (false at index 0 and out of range). -/
def cross_below (A B : List ℚ) (i : Nat) : Bool :=
  decide (0 < i) && decide (i < A.length) && decide (i < B.length) &&
  decide (B.getD (i - 1) 0 ≤ A.getD (i - 1) 0) &&
  decide (A.getD i 0 < B.getD i 0)

/-! ## Backend model: indicators, rules and the structured pipeline -/

/-- Modelled from the spec: SMA(period) — arithmetic mean of the trailing
`period` closes, undefined (warm-up) for the first `period - 1` bars. -/
def smaSeries (period : Nat) (closes : List ℚ) : List (Option ℚ) :=
  (List.range closes.length).map fun i =>
    if period = 0 ∨ i + 1 < period then none
    else some (((closes.drop (i + 1 - period)).take period).sum / (period : ℚ))

/-- Modelled from the spec: the exponential-smoothing recursion of EMA,
`v = alpha * close + (1 - alpha) * prev`. -/
def emaAux (alpha : ℚ) (prev : ℚ) : List ℚ → List ℚ
  | [] => []
  | c :: rest =>
      let v := alpha * c + (1 - alpha) * prev
      v :: emaAux alpha v rest

/-- Modelled from the spec: EMA(period) — standard exponential smoothing
with `alpha = 2/(period+1)`, seeded by the SMA of the first `period` bars;
undefined during the warm-up. -/
def emaSeries (period : Nat) (closes : List ℚ) : List (Option ℚ) :=
  if period = 0 ∨ closes.length < period then closes.map fun _ => none
  else
    let seed := (closes.take period).sum / (period : ℚ)
    let alpha : ℚ := 2 / ((period : ℚ) + 1)
    ((List.range (period - 1)).map fun _ => (none : Option ℚ)) ++
      [some seed] ++ (emaAux alpha seed (closes.drop period)).map some

/-- Modelled from the spec: an indicator declaration of a strategy. -/
inductive IndicatorSpec where
  | sma : (period : Nat) → IndicatorSpec
  | ema : (period : Nat) → IndicatorSpec
deriving DecidableEq, Repr

/-- Modelled from the spec: compute one declared indicator's value series. -/
def computeIndicator (spec : IndicatorSpec) (closes : List ℚ) : List (Option ℚ) :=
  match spec with
  | .sma p => smaSeries p closes
  | .ema p => emaSeries p closes

/-- Modelled from the spec: a rule operand — an indicator reference (by
position in the strategy's indicator list), the raw close price, or a
numeric constant. -/
inductive Operand where
  | price : Operand
  | indicator : (idx : Nat) → Operand
  | const : (c : ℚ) → Operand
deriving DecidableEq, Repr

/-- Modelled from the spec: the supported rule operators. -/
inductive Operator where
  | crossAbove : Operator
  | crossBelow : Operator
  | gt : Operator
  | lt : Operator
  | eq : Operator
  | gte : Operator
  | lte : Operator
deriving DecidableEq, Repr

/-- Modelled from the spec: an entry or exit rule `left operator right`. -/
structure Rule where
  left : Operand
  op : Operator
  right : Operand
deriving DecidableEq, Repr

/-- Modelled from the spec: the value of an operand at a bar index, `none`
when the referenced indicator is still warming up or the index is out of
range. -/
def operandAt (closes : List ℚ) (inds : List (List (Option ℚ))) (o : Operand)
    (i : Nat) : Option ℚ :=
  match o with
  | .price => closes[i]?
  | .const c => some c
  | .indicator k => ((inds[k]?).bind fun s => s[i]?).join

/-- Modelled from the spec: evaluate a rule at one bar index; any undefined
operand makes the condition false, cross operators also look one bar back. -/
def evalRuleAt (closes : List ℚ) (inds : List (List (Option ℚ))) (r : Rule)
    (i : Nat) : Bool :=
  let cur := fun o => operandAt closes inds o i
  let prev := fun o => operandAt closes inds o (i - 1)
  match r.op with
  | .crossAbove =>
      match prev r.left, prev r.right, cur r.left, cur r.right with
      | some pl, some pr, some l, some rr =>
          decide (0 < i) && decide (pl ≤ pr) && decide (rr < l)
      | _, _, _, _ => false
  | .crossBelow =>
      match prev r.left, prev r.right, cur r.left, cur r.right with
      | some pl, some pr, some l, some rr =>
          decide (0 < i) && decide (pr ≤ pl) && decide (l < rr)
      | _, _, _, _ => false
  | .gt =>
      match cur r.left, cur r.right with
      | some l, some rr => decide (rr < l)
      | _, _ => false
  | .lt =>
      match cur r.left, cur r.right with
      | some l, some rr => decide (l < rr)
      | _, _ => false
  | .eq =>
      match cur r.left, cur r.right with
      | some l, some rr => decide (l = rr)
      | _, _ => false
  | .gte =>
      match cur r.left, cur r.right with
      | some l, some rr => decide (rr ≤ l)
      | _, _ => false
  | .lte =>
      match cur r.left, cur r.right with
      | some l, some rr => decide (l ≤ rr)
      | _, _ => false

/-- Modelled from the spec: a rule's boolean signal series over all bars. -/
def evalRule (closes : List ℚ) (inds : List (List (Option ℚ))) (r : Rule) :
    List Bool :=
  (List.range closes.length).map (evalRuleAt closes inds r)

/-- Modelled from the spec: a validated structured strategy (the fields the
numeric pipeline consumes). -/
structure Strategy where
  initial_cash : ℚ
  fee_rate : ℚ
  indicators : List IndicatorSpec
  entry_rule : Rule
  exit_rule : Rule
deriving DecidableEq, Repr

/-- Zip three lists into bar triples (close, entry, exit), truncating to the
shortest. -/
def zip3 : List ℚ → List Bool → List Bool → List (ℚ × Bool × Bool)
  | c :: cs, e :: es, x :: xs => (c, e, x) :: zip3 cs es xs
  | _, _, _ => []

/-- Modelled from the spec: the structured-backtest numeric pipeline —
indicators, then entry/exit signal series, then the bar-by-bar simulation —
returning the equity curve and the drawdown series. -/
def runStructuredBacktest (s : Strategy) (closes : List ℚ) : List ℚ × List ℚ :=
  let inds := s.indicators.map fun spec => computeIndicator spec closes
  let entry := evalRule closes inds s.entry_rule
  let exitS := evalRule closes inds s.exit_rule
  let bars := zip3 closes entry exitS
  let eq := equitySeries s.fee_rate (.Flat s.initial_cash) bars
  (eq, drawdownSeries eq)

/-! ## Backend model: metrics calculator -/

/-- Modelled from the spec: a closed trade record; `ret` is the realized
percentage return of the trade. -/
structure Trade where
  entry_price : ℚ
  exit_price : ℚ
  ret : ℚ
deriving DecidableEq, Repr

/-- Modelled from the spec: the large finite sentinel returned for
`profit_factor` when there are no losing trades (the spec fixes only that it
is a defined large value, not infinity or NaN). -/
def profitFactorSentinel : ℚ := 9999

/-- The winning trades (strictly positive realized return). -/
def winningTrades (trades : List Trade) : List Trade :=
  trades.filter fun t => decide (0 < t.ret)

/-- The losing trades (strictly negative realized return). -/
def losingTrades (trades : List Trade) : List Trade :=
  trades.filter fun t => decide (t.ret < 0)

/-- Modelled from the spec: `profit_factor = sum(gains)/abs(sum(losses))`,
the sentinel when the summed losses are zero (no losing trades). -/
def profit_factor (trades : List Trade) : ℚ :=
  let gains := ((winningTrades trades).map Trade.ret).sum
  let losses := ((losingTrades trades).map Trade.ret).sum
  if losses = 0 then profitFactorSentinel else gains / |losses|

/-- Modelled from the spec: `win_rate = wins/total_trades`, `0` when there
are no trades. -/
def win_rate (trades : List Trade) : ℚ :=
  if trades.length = 0 then 0
  else ((winningTrades trades).length : ℚ) / (trades.length : ℚ)

/-- Modelled from the spec: mean percentage return of the winning trades,
`0` when there are none. -/
def avg_winning_trade (trades : List Trade) : ℚ :=
  let w := winningTrades trades
  if w.length = 0 then 0 else ((w.map Trade.ret).sum) / (w.length : ℚ)

/-- Modelled from the spec: mean percentage return of the losing trades,
`0` when there are none. -/
def avg_losing_trade (trades : List Trade) : ℚ :=
  let l := losingTrades trades
  if l.length = 0 then 0 else ((l.map Trade.ret).sum) / (l.length : ℚ)

/-- Mean of a list of rationals, `0` on the empty list. -/
def listMean (xs : List ℚ) : ℚ :=
  if xs.length = 0 then 0 else xs.sum / (xs.length : ℚ)

/-- Population variance of a list of rationals, `0` on the empty list. -/
def listVariance (xs : List ℚ) : ℚ :=
  let m := listMean xs
  if xs.length = 0 then 0 else ((xs.map fun x => (x - m) ^ 2).sum) / (xs.length : ℚ)

/-- Modelled from the spec: a rational square-root approximation standing in
for the real square root of the implementation; exact only where the claims
need it (the zero-variance branch never reaches it). -/
def ratSqrt (q : ℚ) : ℚ :=
  if q ≤ 0 then 0 else ((Nat.sqrt (q.num.toNat * q.den) : ℚ) / (q.den : ℚ))

/-- Modelled from the spec: `sharpe_ratio = mean(returns)/stdev(returns) *
sqrt(252)`, `0` when the variance of the daily returns is zero. -/
def sharpe_ratio (returns : List ℚ) : ℚ :=
  if listVariance returns = 0 then 0
  else listMean returns / ratSqrt (listVariance returns) * ratSqrt 252

/-- Modelled from the spec: `sortino_ratio` uses only the standard deviation
of the negative returns in the denominator, `0` when that variance is
zero. -/
def sortino_ratio (returns : List ℚ) : ℚ :=
  let downside := returns.filter fun r => decide (r < 0)
  if listVariance downside = 0 then 0
  else listMean returns / ratSqrt (listVariance downside) * ratSqrt 252

/-! ## Auxiliary predicates and concrete demonstration inputs -/

/-- A list of event kinds strictly alternates, starting with `k`. -/
def altFrom (k : EvKind) : List EvKind → Bool
  | [] => true
  | k2 :: rest => k == k2 && altFrom k.other rest

/-- A list of rationals is non-decreasing starting from the bound `m`. -/
def chainFrom (m : ℚ) : List ℚ → Prop
  | [] => True
  | v :: rest => m ≤ v ∧ chainFrom v rest

/-- The cash or share quantity carried by a position state is positive. -/
def posPos : PosState → Prop
  | .Flat cash => 0 < cash
  | .Long shares => 0 < shares

/-- A clarification response whose `conversation` field is absent (falsy). -/
def clarOnlyResponse : ResponseJson :=
  { conversation := false, needs_clarification := true,
    message := "Which ticker would you like to test?", error := none }

/-- A clarification response with a truthy `conversation` field. -/
def clarFullResponse : ResponseJson :=
  { conversation := true, needs_clarification := true,
    message := "Which indicators?", error := none }

/-- A plain error response. -/
def errorResponse : ResponseJson :=
  { conversation := false, needs_clarification := false,
    message := "", error := some "Ticker not found" }

/-- A frontend state with no chat history and no displayed results. -/
def emptyState : FrontendState := { chatHistory := [], data := none }

/-- A frontend state currently displaying results. -/
def shownState : FrontendState :=
  { chatHistory := [{ role := "user", content := "test SPY", timestamp := 0 }],
    data := some clarFullResponse }

/-- A small concrete strategy: SMA(2)/SMA(3) cross on the close series. -/
def demoStrategy : Strategy :=
  { initial_cash := 10000, fee_rate := 0,
    indicators := [.sma 2, .sma 3],
    entry_rule := { left := .indicator 0, op := .crossAbove, right := .indicator 1 },
    exit_rule := { left := .indicator 0, op := .crossBelow, right := .indicator 1 } }

/-- A small concrete close-price series. -/
def demoCloses : List ℚ := [10, 9, 8, 9, 10, 11, 10, 9, 8, 9]

/-- A one-element trade log with a single winning trade. -/
def demoWinTrades : List Trade :=
  [{ entry_price := 10, exit_price := 12, ret := 1 / 5 }]

/-- A concrete `chart_data` payload exercising all four chart builders. -/
def demoChartData : ChartDataObj :=
  { dates := some ["2020-01-01", "2020-01-02"],
    equity := some [10000, 10100],
    drawdown := some [0, 0],
    indicators := some [("SMA_2", [10, 11])],
    signals := some [("entries", [0, 1])] }

/-! ## Theorems -/

/-- Claim C3: for every pair of operand series A and B and every index i,
`cross_above(A,B)[i]` and `cross_below(A,B)[i]` are never simultaneously
true, where `cross_above(A,B)[i]` holds iff `A[i-1] <= B[i-1]` and
`A[i] > B[i]`, with the symmetric definition for `cross_below`. -/
theorem cross_signals_mutually_exclusive (A B : List ℚ) (i : Nat) :
    (cross_above A B i && cross_below A B i) = false := by
  by_cases hab : B.getD i 0 < A.getD i 0
  · have hb : cross_below A B i = false := by
      unfold cross_below
      have h2 : decide (A.getD i 0 < B.getD i 0) = false :=
        decide_eq_false (not_lt.mpr hab.le)
      rw [h2, Bool.and_false]
    rw [hb, Bool.and_false]
  · have ha : cross_above A B i = false := by
      unfold cross_above
      have h2 : decide (B.getD i 0 < A.getD i 0) = false := decide_eq_false hab
      rw [h2, Bool.and_false]
    rw [ha, Bool.false_and]

/-- Claim C9: for every format string, `formatValue undefined format`
returns exactly the string `"0.00"`, so an absent currency or percent
metric is rendered without its `$` prefix or `%` suffix. -/
theorem formatValue_undefined_is_plain_zero (format : String) :
    formatValue none format = "0.00" := rfl

/-- Claim C8: every chart the frontend constructs from a `chart_data`
payload — equity, drawdown, each indicator series and each signal series —
uses the single `chart_data.dates` array as its label axis. -/
theorem charts_use_dates_as_labels (cd : ChartDataObj) :
    ((equityChart cd).all fun c => decide (c.labels = cd.dates)) = true ∧
    ((drawdownChart cd).all fun c => decide (c.labels = cd.dates)) = true ∧
    ((indicatorCharts cd).all fun nc => decide (nc.chart.labels = cd.dates)) = true ∧
    ((signalCharts cd).all fun nc => decide (nc.chart.labels = cd.dates)) = true := by
  obtain ⟨dates, equity, drawdown, inds, sigs⟩ := cd
  refine ⟨?_, ?_, ?_, ?_⟩
  · cases dates <;> cases equity <;> simp [equityChart]
  · cases dates <;> cases drawdown <;> simp [drawdownChart]
  · cases inds with
    | none => simp [indicatorCharts]
    | some entries =>
      simp [indicatorCharts, List.all_eq_true]
      intro x n v _ heq
      subst heq
      rfl
  · cases sigs with
    | none => simp [signalCharts]
    | some entries =>
      simp [signalCharts, List.all_eq_true]
      intro x n v _ heq
      subst heq
      rfl

/-- Claim C6, counterexample: a response with `needs_clarification` true and
a `message`, but without a truthy `conversation` field, is not treated as a
clarification — the dispatch falls through to the success branch, sets the
data state to the response instead of clearing it, and appends the fixed
success message rather than the response's message. -/
theorem clarification_without_conversation_counterexample :
    clarOnlyResponse.needs_clarification = true ∧
    (handleSubmitResponse 0 clarOnlyResponse emptyState).data = some clarOnlyResponse ∧
    (handleSubmitResponse 0 clarOnlyResponse emptyState).chatHistory =
      [{ role := "assistant", content := successText, timestamp := 0 }] :=
  ⟨rfl, rfl, rfl⟩

/-- Claim C6 (amended): a response is treated as a clarification only when
both its `conversation` field and `needs_clarification` are truthy; in that
case the frontend surfaces the response's `message` field verbatim as an
assistant chat message and clears the result data state. -/
theorem clarification_response_handling (now : Nat) (json : ResponseJson)
    (s : FrontendState) (hc : json.conversation = true)
    (hn : json.needs_clarification = true) :
    handleSubmitResponse now json s =
      { chatHistory := s.chatHistory ++
          [{ role := "assistant", content := json.message, timestamp := now }],
        data := none } := by
  simp [handleSubmitResponse, hc, hn]

/-- Witness for the amended claim C6 at a concrete response and state. -/
theorem clarification_response_handling_witness :
    handleSubmitResponse 0 clarFullResponse emptyState =
      { chatHistory :=
          [{ role := "assistant", content := "Which indicators?", timestamp := 0 }],
        data := none } :=
  clarification_response_handling 0 clarFullResponse emptyState rfl rfl

/-- Claim C10: a response with a truthy `error` field that is not a
clarification appends an error chat message and leaves the displayed data
state unchanged, whereas a clarification response resets the data state to
`null`. -/
theorem error_branch_preserves_data (now : Nat) (json : ResponseJson)
    (s : FrontendState) :
    ((json.conversation && json.needs_clarification) = false →
      errTruthy json.error = true →
      (handleSubmitResponse now json s).data = s.data ∧
      (handleSubmitResponse now json s).chatHistory =
        s.chatHistory ++ [errorChatMessage json now]) ∧
    ((json.conversation && json.needs_clarification) = true →
      (handleSubmitResponse now json s).data = none) := by
  constructor
  · intro h he
    constructor <;> simp [handleSubmitResponse, h, he]
  · intro h
    simp [handleSubmitResponse, h]

/-- Witness for claim C10 at concrete responses and a state with displayed
results. -/
theorem error_branch_preserves_data_witness :
    ((handleSubmitResponse 1 errorResponse shownState).data = shownState.data ∧
      (handleSubmitResponse 1 errorResponse shownState).chatHistory =
        shownState.chatHistory ++ [errorChatMessage errorResponse 1]) ∧
    (handleSubmitResponse 1 clarFullResponse shownState).data = none :=
  ⟨(error_branch_preserves_data 1 errorResponse shownState).1 rfl rfl,
   (error_branch_preserves_data 1 clarFullResponse shownState).2 rfl⟩

/-- Claim C7, counterexample: the legacy frontend (`src/app/src/app/page.tsx`)
sends a request to the conversational backtest endpoint that carries no
`conversation_history` at all, so not every request includes the
accumulated conversation history. -/
theorem legacy_request_has_no_history_counterexample :
    (legacyBacktestBody "Buy when RSI is below 30 for SPY").conversation_history
      = none := rfl

/-- Claim C7 (amended): the chat frontend's requests include the full
conversation history accumulated so far — the `conversation_history` array
has one turn per accumulated chat message, in order, carrying that
message's role and content; the legacy frontend's requests carry none. -/
theorem chat_request_includes_full_history (input : String)
    (hist : List ChatMessage) :
    ∃ turns, (naturalBacktestBody input hist).conversation_history = some turns ∧
      turns.length = hist.length ∧
      ∀ i : Nat, turns[i]? =
        (hist[i]?).map fun m => { role := m.role, content := m.content } := by
  exact ⟨_, rfl, by simp, fun i => by simp [List.getElem?_map]⟩

/-- Claim C4: the numeric pipeline is a deterministic, pure function of its
inputs — two runs of `runStructuredBacktest` with identical strategy and
price data produce identical equity and drawdown arrays. -/
theorem runStructuredBacktest_deterministic (s : Strategy) (closes : List ℚ)
    (out1 out2 : List ℚ × List ℚ)
    (h1 : runStructuredBacktest s closes = out1)
    (h2 : runStructuredBacktest s closes = out2) :
    out1.1 = out2.1 ∧ out1.2 = out2.2 := by
  subst h1
  subst h2
  exact ⟨rfl, rfl⟩

/-- Witness for claim C4 at a concrete strategy and price series. -/
theorem runStructuredBacktest_deterministic_witness :
    (runStructuredBacktest demoStrategy demoCloses).1 =
      (runStructuredBacktest demoStrategy demoCloses).1 ∧
    (runStructuredBacktest demoStrategy demoCloses).2 =
      (runStructuredBacktest demoStrategy demoCloses).2 :=
  runStructuredBacktest_deterministic demoStrategy demoCloses _ _ rfl rfl

/-- Helper: starting from any state, the simulator's event kinds alternate,
beginning with an open if the start state is Flat and with a close if it is
Long. -/
theorem runSim_events_alternate (fee : ℚ) :
    ∀ (bars : List (ℚ × Bool × Bool)) (st : PosState),
    altFrom (if st.isFlat then EvKind.opened else EvKind.closed)
      (((runSim fee st bars).2).map TradeEvent.kind) = true := by
  intro bars
  induction bars with
  | nil => intro st; cases st <;> simp [runSim, altFrom]
  | cons b rest ih =>
    intro st
    obtain ⟨c, e, x⟩ := b
    cases st with
    | Flat cash =>
      by_cases he : e
      · have h := ih (PosState.Long (cash * (1 - fee) / c))
        simp [runSim, stepBar, he, altFrom, TradeEvent.kind, EvKind.other,
          PosState.isFlat] at h ⊢
        exact h
      · have h := ih (PosState.Flat cash)
        simp [runSim, stepBar, he, PosState.isFlat] at h ⊢
        exact h
    | Long shares =>
      by_cases hx : x
      · have h := ih (PosState.Flat (shares * c * (1 - fee)))
        simp [runSim, stepBar, hx, altFrom, TradeEvent.kind, EvKind.other,
          PosState.isFlat] at h ⊢
        exact h
      · have h := ih (PosState.Long shares)
        simp [runSim, stepBar, hx, PosState.isFlat] at h ⊢
        exact h

/-- Claim C1: for every price series and signal pair, the simulator's state
after each bar is exactly one of Flat or Long, and the open/close events of
a run started Flat strictly alternate beginning with an open — it never
opens a second position while one is open and never closes a position that
is not open. -/
theorem simulator_position_invariant (fee cash : ℚ)
    (bars : List (ℚ × Bool × Bool)) :
    altFrom EvKind.opened
      (((runSim fee (PosState.Flat cash) bars).2).map TradeEvent.kind) = true ∧
    ((posStates fee (PosState.Flat cash) bars).all
      fun st => st.isFlat || st.isLong) = true := by
  constructor
  · have h := runSim_events_alternate fee bars (PosState.Flat cash)
    simpa [PosState.isFlat] using h
  · rw [List.all_eq_true]
    intro st _
    cases st <;> simp [PosState.isFlat, PosState.isLong]

/-- Claim C5: with at least one trade and no losing trades, `profit_factor`
is the defined large finite sentinel (never an unbounded or NaN value), and
every metric whose denominator (trade count or variance) is zero defaults
to 0. -/
theorem metrics_degenerate_defaults :
    (∀ trades : List Trade, trades ≠ [] → (∀ t ∈ trades, ¬ t.ret < 0) →
      profit_factor trades = profitFactorSentinel) ∧
    (∀ trades : List Trade, trades.length = 0 → win_rate trades = 0) ∧
    (∀ trades : List Trade, winningTrades trades = [] →
      avg_winning_trade trades = 0) ∧
    (∀ trades : List Trade, losingTrades trades = [] →
      avg_losing_trade trades = 0) ∧
    (∀ returns : List ℚ, listVariance returns = 0 → sharpe_ratio returns = 0) ∧
    (∀ returns : List ℚ,
      listVariance (returns.filter fun r => decide (r < 0)) = 0 →
      sortino_ratio returns = 0) := by
  refine ⟨?_, ?_, ?_, ?_, ?_, ?_⟩
  · intro trades _ hnl
    have hnil : losingTrades trades = [] := by
      rw [losingTrades, List.filter_eq_nil_iff]
      intro t ht
      simpa using hnl t ht
    rw [profit_factor, hnil]
    simp
  · intro trades h
    rw [win_rate, if_pos h]
  · intro trades h
    rw [avg_winning_trade, h]
    simp
  · intro trades h
    rw [avg_losing_trade, h]
    simp
  · intro returns h
    rw [sharpe_ratio, if_pos h]
  · intro returns h
    rw [sortino_ratio, if_pos h]

/-- Witness for claim C5 at concrete degenerate inputs. -/
theorem metrics_degenerate_defaults_witness :
    profit_factor demoWinTrades = profitFactorSentinel ∧
    win_rate [] = 0 ∧
    avg_winning_trade [] = 0 ∧
    avg_losing_trade [] = 0 ∧
    sharpe_ratio [1, 1, 1] = 0 ∧
    sortino_ratio [1, 1, 1] = 0 :=
  ⟨metrics_degenerate_defaults.1 demoWinTrades (by simp [demoWinTrades])
     (by
       intro t ht
       simp [demoWinTrades] at ht
       subst ht
       norm_num),
   metrics_degenerate_defaults.2.1 [] rfl,
   metrics_degenerate_defaults.2.2.1 [] rfl,
   metrics_degenerate_defaults.2.2.2.1 [] rfl,
   metrics_degenerate_defaults.2.2.2.2.1 [1, 1, 1]
     (by norm_num [listVariance, listMean]),
   metrics_degenerate_defaults.2.2.2.2.2 [1, 1, 1]
     (by norm_num [listVariance, listMean, List.filter])⟩

/-- Helper: every drawdown value produced by `ddAux` from a nonnegative
running maximum over positive values is nonpositive. -/
theorem ddAux_nonpos (l : List ℚ) : ∀ m : ℚ, 0 ≤ m → (∀ v ∈ l, 0 < v) →
    ∀ d ∈ ddAux m l, d ≤ 0 := by
  induction l with
  | nil => intro m _ _ d hd; simp [ddAux] at hd
  | cons v rest ih =>
    intro m hm hpos d hd
    have hv : 0 < v := hpos v (List.mem_cons_self v rest)
    have hm2 : 0 < max m v := lt_of_lt_of_le hv (le_max_right m v)
    simp only [ddAux, List.mem_cons] at hd
    rcases hd with hd | hd
    · subst hd
      apply div_nonpos_of_nonpos_of_nonneg
      · have := le_max_right m v
        linarith
      · exact hm2.le
    · exact ih (max m v) (le_trans hm (le_max_left m v))
        (fun w hw => hpos w (List.mem_cons_of_mem v hw)) d hd

/-- Helper: the minimum fold of a list of nonpositive values is
nonpositive. -/
theorem foldr_min_nonpos (l : List ℚ) (h : ∀ d ∈ l, d ≤ 0) :
    l.foldr min 0 ≤ 0 := by
  induction l with
  | nil => simp
  | cons d rest ih =>
    have hr := ih fun w hw => h w (List.mem_cons_of_mem d hw)
    calc (d :: rest).foldr min 0 = min d (rest.foldr min 0) := rfl
    _ ≤ rest.foldr min 0 := min_le_right _ _
    _ ≤ 0 := hr

/-- Helper: the minimum fold of a list of nonpositive values is zero iff
every value is zero. -/
theorem foldr_min_zero_iff (l : List ℚ) (h : ∀ d ∈ l, d ≤ 0) :
    l.foldr min 0 = 0 ↔ ∀ d ∈ l, d = 0 := by
  induction l with
  | nil => simp
  | cons d rest ih =>
    have hd0 : d ≤ 0 := h d (List.mem_cons_self d rest)
    have hr := ih fun w hw => h w (List.mem_cons_of_mem d hw)
    have hfold : (d :: rest).foldr min 0 = min d (rest.foldr min 0) := rfl
    rw [hfold]
    constructor
    · intro hmin
      have h1 : d = 0 := le_antisymm hd0 (by
        have := min_le_left d (rest.foldr min 0)
        linarith)
      have h2 : rest.foldr min 0 = 0 := le_antisymm
        (foldr_min_nonpos rest fun w hw => h w (List.mem_cons_of_mem d hw))
        (by
          have := min_le_right d (rest.foldr min 0)
          linarith)
      intro w hw
      rcases List.mem_cons.mp hw with hw | hw
      · exact hw ▸ h1
      · exact (hr.mp h2) w hw
    · intro hall
      have h1 : d = 0 := hall d (List.mem_cons_self d rest)
      have h2 : rest.foldr min 0 = 0 :=
        hr.mpr fun w hw => hall w (List.mem_cons_of_mem d hw)
      rw [h1, h2]
      simp

/-- Helper: all drawdowns of `ddAux` vanish exactly when the values are
non-decreasing starting from the running maximum. -/
theorem ddAux_zero_iff (l : List ℚ) : ∀ m : ℚ, 0 ≤ m → (∀ v ∈ l, 0 < v) →
    ((∀ d ∈ ddAux m l, d = 0) ↔ chainFrom m l) := by
  induction l with
  | nil => intro m _ _; simp [ddAux, chainFrom]
  | cons v rest ih =>
    intro m hm hpos
    have hv : 0 < v := hpos v (List.mem_cons_self v rest)
    have hm2 : 0 < max m v := lt_of_lt_of_le hv (le_max_right m v)
    have hpos2 : ∀ w ∈ rest, 0 < w := fun w hw => hpos w (List.mem_cons_of_mem v hw)
    have hhead : (v - max m v) / max m v = 0 ↔ m ≤ v := by
      rw [div_eq_zero_iff]
      constructor
      · rintro (hz | hz)
        · have : v = max m v := by linarith
          exact max_eq_right_iff.mp this.symm
        · exact absurd hz hm2.ne.symm
      · intro hle
        left
        have : max m v = v := max_eq_right hle
        rw [this]
        ring
    constructor
    · intro hall
      have h0 : (v - max m v) / max m v = 0 :=
        hall _ (by simp [ddAux])
      have hle : m ≤ v := hhead.mp h0
      have hmax : max m v = v := max_eq_right hle
      refine ⟨hle, ?_⟩
      have hrest : ∀ d ∈ ddAux v rest, d = 0 := by
        intro d hd
        apply hall
        simp only [ddAux, List.mem_cons]
        right
        rw [hmax]
        exact hd
      exact (ih v hv.le hpos2).mp hrest
    · rintro ⟨hle, hchain⟩
      have hmax : max m v = v := max_eq_right hle
      intro d hd
      simp only [ddAux, List.mem_cons] at hd
      rcases hd with hd | hd
      · rw [hd, hhead.mpr hle]
      · rw [hmax] at hd
        exact (ih v hv.le hpos2).mpr hchain d hd

/-- Helper: `chainFrom v l` says exactly that `v :: l` is non-decreasing. -/
theorem chainFrom_cons_iff (l : List ℚ) : ∀ v : ℚ,
    chainFrom v l ↔ nondecreasing (v :: l) := by
  induction l with
  | nil => intro v; simp [chainFrom, nondecreasing]
  | cons w rest ih =>
    intro v
    rw [chainFrom, nondecreasing, ih w]

/-- Helper: the drawdown series of a positive equity curve is nonpositive,
its minimum is nonpositive, and the minimum is zero iff the curve is
non-decreasing. -/
theorem drawdown_props (eq : List ℚ) (hpos : ∀ v ∈ eq, 0 < v) :
    (∀ d ∈ drawdownSeries eq, d ≤ 0) ∧ max_drawdown eq ≤ 0 ∧
    (max_drawdown eq = 0 ↔ nondecreasing eq) := by
  have h1 : ∀ d ∈ drawdownSeries eq, d ≤ 0 := ddAux_nonpos eq 0 le_rfl hpos
  refine ⟨h1, foldr_min_nonpos _ h1, ?_⟩
  rw [max_drawdown, foldr_min_zero_iff _ h1]
  have h2 := ddAux_zero_iff eq 0 le_rfl hpos
  rw [drawdownSeries] at *
  rw [h2]
  cases eq with
  | nil => simp [chainFrom, nondecreasing]
  | cons v rest =>
    have hv : 0 < v := hpos v (List.mem_cons_self v rest)
    rw [chainFrom, chainFrom_cons_iff]
    constructor
    · rintro ⟨_, h⟩
      exact h
    · intro h
      exact ⟨hv.le, h⟩

/-- Helper: one simulator step preserves positivity of the carried cash or
share quantity when the fee rate is in [0,1) and the close is positive. -/
theorem stepBar_posPos (fee c : ℚ) (e x : Bool) (st : PosState)
    (hf0 : 0 ≤ fee) (hf1 : fee < 1) (hc : 0 < c) (hst : posPos st) :
    posPos (stepBar fee c e x st).1 := by
  have h1f : 0 < 1 - fee := by linarith
  cases st with
  | Flat cash =>
    by_cases he : e
    · simp only [stepBar, he, if_true]
      exact div_pos (mul_pos hst h1f) hc
    · simp only [stepBar, he, if_false]
      exact hst
  | Long shares =>
    by_cases hx : x
    · simp only [stepBar, hx, if_true]
      exact mul_pos (mul_pos hst hc) h1f
    · simp only [stepBar, hx, if_false]
      exact hst

/-- Helper: every equity value of a run with positive starting quantity,
fee rate in [0,1) and positive closes is positive. -/
theorem equitySeries_pos (fee : ℚ) (hf0 : 0 ≤ fee) (hf1 : fee < 1) :
    ∀ (bars : List (ℚ × Bool × Bool)) (st : PosState), posPos st →
    (∀ b ∈ bars, 0 < b.1) → ∀ v ∈ equitySeries fee st bars, 0 < v := by
  intro bars
  induction bars with
  | nil => intro st _ _ v hv; simp [equitySeries] at hv
  | cons b rest ih =>
    intro st hst hb v hv
    obtain ⟨c, e, x⟩ := b
    have hc : 0 < c := hb (c, e, x) (List.mem_cons_self _ _)
    have hst2 : posPos (stepBar fee c e x st).1 :=
      stepBar_posPos fee c e x st hf0 hf1 hc hst
    simp only [equitySeries, List.mem_cons] at hv
    rcases hv with hv | hv
    · subst hv
      rcases h2 : (stepBar fee c e x st).1 with cash | shares
      · have hcase := hst2
        rw [h2] at hcase
        exact hcase
      · have hcase := hst2
        rw [h2] at hcase
        exact mul_pos hcase hc
    · exact ih (stepBar fee c e x st).1 hst2
        (fun w hw => hb w (List.mem_cons_of_mem _ hw)) v hv

/-- Helper: the close component of any bar produced by `zip3` is a member
of the close list. -/
theorem zip3_fst_mem : ∀ (cs : List ℚ) (es xs : List Bool)
    (b : ℚ × Bool × Bool), b ∈ zip3 cs es xs → b.1 ∈ cs := by
  intro cs
  induction cs with
  | nil => intro es xs b hb; cases es <;> cases xs <;> simp [zip3] at hb
  | cons c cs ih =>
    intro es xs b hb
    cases es with
    | nil => simp [zip3] at hb
    | cons e es =>
      cases xs with
      | nil => simp [zip3] at hb
      | cons x xs =>
        simp only [zip3, List.mem_cons] at hb
        rcases hb with hb | hb
        · subst hb; exact List.mem_cons_self _ _
        · exact List.mem_cons_of_mem _ (ih es xs b hb)

/-- Claim C2: for every backtest run (positive initial cash, fee rate in
[0,1), positive closes), every element of the drawdown series is at most 0,
hence `max_drawdown <= 0`, and `max_drawdown = 0` iff the equity curve is
non-decreasing. -/
theorem backtest_drawdown_invariant (s : Strategy) (closes : List ℚ)
    (hcash : 0 < s.initial_cash) (hf0 : 0 ≤ s.fee_rate) (hf1 : s.fee_rate < 1)
    (hcl : ∀ c ∈ closes, 0 < c) :
    (∀ d ∈ (runStructuredBacktest s closes).2, d ≤ 0) ∧
    max_drawdown (runStructuredBacktest s closes).1 ≤ 0 ∧
    (max_drawdown (runStructuredBacktest s closes).1 = 0 ↔
      nondecreasing (runStructuredBacktest s closes).1) := by
  have hpos : ∀ v ∈ (runStructuredBacktest s closes).1, 0 < v := by
    have hfst : (runStructuredBacktest s closes).1 =
        equitySeries s.fee_rate (PosState.Flat s.initial_cash)
          (zip3 closes
            (evalRule closes (s.indicators.map fun spec => computeIndicator spec closes)
              s.entry_rule)
            (evalRule closes (s.indicators.map fun spec => computeIndicator spec closes)
              s.exit_rule)) := rfl
    rw [hfst]
    exact equitySeries_pos s.fee_rate hf0 hf1 _ _ hcash
      (fun b hb => hcl b.1 (zip3_fst_mem _ _ _ b hb))
  have hsnd : (runStructuredBacktest s closes).2 =
      drawdownSeries (runStructuredBacktest s closes).1 := rfl
  rw [hsnd]
  exact drawdown_props _ hpos

/-- Witness for claim C2 at a concrete strategy and price series. -/
theorem backtest_drawdown_invariant_witness :
    max_drawdown (runStructuredBacktest demoStrategy demoCloses).1 ≤ 0 :=
  (backtest_drawdown_invariant demoStrategy demoCloses (by norm_num [demoStrategy])
    (by norm_num [demoStrategy]) (by norm_num [demoStrategy])
    (by
      intro c hc
      fin_cases hc <;> norm_num)).2.1

end BacktestGPT
